import Mathlib

/-!
Verification of the double-key hash table of `src/double_key_table.py`.

The development shallow-embeds the Python source. Table state is explicit,
fallible operations return `Except`, and the unbounded `while True` loop of
`_linear_probe` is modelled by a fuel-indexed iteration whose `none` result
means the loop completed that many rounds without returning or raising.

The companion package `data_structures` (`LinearProbeTable`, `ArrayR`,
`FullError`) is imported by the source but is not among the given source
files; the pieces the embedded code touches are modelled from the
specification and carry a doc comment starting with `Modelled from the spec:`.

Keys are strings, modelled as `List Char` with `Char.toNat` for `ord`;
values are modelled as `Nat`.
-/

/-- Python-style errors raised by the embedded code. -/
inductive PyErr where
  | keyError
  | fullError
  | indexError
  | notImplementedError
  | attributeError
  | zeroDivisionError
  | typeError
deriving DecidableEq

/-- An occupied inner-table slot, exactly as `_linear_probe` reads it:
`slot[0]` is the first key, `slot[1][0]` the second key, `slot[1][1]` the
value. -/
abbrev Entry : Type := List Char × List Char × Nat

/-- Modelled from the spec: `LinearProbeTable` (imported from
`data_structures.hash_table`, not among the given source files) — a
fixed-capacity array of slots, each empty (`none`) or occupied, together with
its live-entry count, which is what `len(sub_table)` returns. -/
structure LinearProbeTable where
  array : List (Option Entry)
  count : Nat
deriving DecidableEq

/-- Modelled from the spec: `table_size`, the capacity of an inner table. -/
def LinearProbeTable.table_size (st : LinearProbeTable) : Nat :=
  st.array.length

/-- Modelled from the spec: a freshly created inner table with all slots
empty and live count zero. -/
def LinearProbeTable.create (cap : Nat) : LinearProbeTable :=
  ⟨List.replicate cap none, 0⟩

/-- Modelled from the spec: inner-table membership of a second-level key
(`key2 in sub_table`). -/
def LinearProbeTable.containsKey (st : LinearProbeTable) (k2 : List Char) : Bool :=
  st.array.any (fun o => match o with
    | some e => decide (e.2.1 = k2)
    | none => false)

/-- Modelled from the spec: inner-table lookup of a second-level key
(`sub_table[key2]`). -/
def LinearProbeTable.getValue (st : LinearProbeTable) (k2 : List Char) : Option Nat :=
  st.array.findSome? (fun o => match o with
    | some e => if e.2.1 = k2 then some e.2.2 else none
    | none => none)

/-- Data-model well-formedness (spec, section 3): the live count equals the
number of occupied slots. -/
def LinearProbeTable.Wf (st : LinearProbeTable) : Prop :=
  st.count = (st.array.filter Option.isSome).length

/-- The state of a `DoubleKeyTable`: the outer backing `ArrayR` (modelled from
the spec as a fixed-length list whose slots are `none` or an inner table), the
global entry counter `num_entries`, and the size-sequence bookkeeping set up
by `__init__`. The float field `load_factor = 0.0` is not modelled; no claim
concerns it. -/
structure DoubleKeyTable where
  table : List (Option LinearProbeTable)
  num_entries : Nat
  TABLE_SIZES : List Nat
  size_index : Nat
deriving DecidableEq

/-- The class attribute `DoubleKeyTable.TABLE_SIZES` (source line 26), the
default size sequence. -/
def TABLE_SIZES_default : List Nat :=
  [5, 13, 29, 53, 97, 193, 389, 769, 1543, 3079, 6151, 12289, 24593, 49157,
   98317, 196613, 393241, 786433, 1572869]

/-- The class attribute `HASH_BASE` (source line 28). -/
def HASH_BASE : Nat := 31

/-- The rolling-hash loop as spelled out in the bodies of `hash1` and `hash2`
(source lines 55-60 and 69-74): starting from `value = 0`, `a = 31415`, each
character performs `value = (ord(char) + a * value) % m` and then
`a = a * HASH_BASE % (m - 1)`, where `m` is the modulus the body reads from
its table. Only `hash2` can actually run this loop; see `hash1`. -/
def hashRoll (m : Nat) (key : List Char) : Nat :=
  (key.foldl (fun va c => ((c.toNat + va.2 * va.1) % m, va.2 * HASH_BASE % (m - 1)))
    (0, 31415)).1

/-- Source `hash1` (lines 48-60), embedded faithfully. Its loop body reads
`self.table_size`, but `table_size` is a plain method of this class (source
lines 203-207) whose body is `raise NotImplementedError`; reading it without
calling yields a bound-method object, so on the first character
`(ord(char) + a * value) % self.table_size` is `int % method` and raises
`TypeError`. For the empty key the loop body never runs and `hash1` returns
the initial `value = 0` without ever touching `table_size`. -/
def DoubleKeyTable.hash1 (d : DoubleKeyTable) (key : List Char) : Except PyErr Nat :=
  match key with
  | [] => .ok 0
  | _ :: _ => .error .typeError

/-- Source `hash2` (lines 62-74): the rolling hash at the given sub-table's
capacity; it reads the sub-table only through `sub_table.table_size`. -/
def hash2 (key : List Char) (sub_table : LinearProbeTable) : Nat :=
  hashRoll sub_table.table_size key

/-- The rolling-hash recurrence stated exactly as the claim words it:
`value = (char_code + a * value) mod capacity` with the multiplier updated as
`a = (a * HASH_BASE) mod (capacity - 1)`. -/
def specRollingHash (cap : Nat) : List Char → Nat → Nat → Nat
  | [], value, _ => value
  | c :: rest, value, a =>
      specRollingHash cap rest ((c.toNat + a * value) % cap) (a * HASH_BASE % (cap - 1))

/-- Possible terminations of one round of the `_linear_probe` loop. -/
inductive ProbeResult where
  | found (top sub : Nat)
  | keyError
  | fullError
  | zeroDivisionError
deriving DecidableEq

/-- Outcome of one round of the `_linear_probe` loop body: either the loop
terminates with a `ProbeResult`, or it falls through to the next round. -/
inductive ProbeStep where
  | done (r : ProbeResult)
  | next
deriving DecidableEq

/-- One round of the `while True` loop of `_linear_probe` (source lines
85-95). At the top of every round the source reassigns
`sub_index = self.hash2(key2, sub_table)`, so `sub_index` equals
`hash2 k2 st` everywhere it is read (the incremented value of the previous
round is discarded). `sub_table[sub_index]` is read as direct slot access
(Modelled from the spec: the probe engine inspects the slot at the probe
index); `len(sub_table)` is the live count, and a Python `% 0` raises
`ZeroDivisionError`. -/
def probeBody (st : LinearProbeTable) (top : Nat) (k1 k2 : List Char)
    (is_insert : Bool) : ProbeStep :=
  match st.array.getD (hash2 k2 st) none with
  | none => if is_insert then .done (.found top (hash2 k2 st)) else .done .keyError
  | some e =>
      if e.1 = k1 ∧ e.2.1 = k2 then .done (.found top (hash2 k2 st))
      else if st.count = 0 then .done .zeroDivisionError
      else if (hash2 k2 st + 1) % st.count = hash2 k2 st then .done .fullError
      else .next

/-- The `while True` loop of `_linear_probe`, indexed by fuel: `none` means
the loop ran that many rounds without returning or raising. -/
def probeLoop (st : LinearProbeTable) (top : Nat) (k1 k2 : List Char)
    (is_insert : Bool) : Nat → Option ProbeResult
  | 0 => none
  | fuel + 1 =>
      match probeBody st top k1 k2 is_insert with
      | .done r => some r
      | .next => probeLoop st top k1 k2 is_insert fuel

/-- Conversion of a loop termination into the result of `_linear_probe`:
a found position is returned, `KeyError`, `FullError` and `ZeroDivisionError`
are raised. -/
def resultOfProbe : Option ProbeResult → Option (Except PyErr (Nat × Nat))
  | none => none
  | some (.found i j) => some (.ok (i, j))
  | some .keyError => some (.error .keyError)
  | some .fullError => some (.error .fullError)
  | some .zeroDivisionError => some (.error .zeroDivisionError)

/-- Source `_linear_probe` (lines 76-95): hash the first key with `hash1`
(whose `TypeError` on a non-empty key propagates), fetch the outer slot
(`sub_table = self.table[top_index]`; when that slot is `None` the subsequent
`hash2(key2, sub_table)` fails with an `AttributeError`), then run the
loop. -/
def DoubleKeyTable.linearProbeFuel (d : DoubleKeyTable) (fuel : Nat)
    (k1 k2 : List Char) (is_insert : Bool) : Option (Except PyErr (Nat × Nat)) :=
  match d.hash1 k1 with
  | .error e => some (.error e)
  | .ok top =>
      match d.table.getD top none with
      | none => some (.error .attributeError)
      | some st => resultOfProbe (probeLoop st top k1 k2 is_insert fuel)

/-- Continuation of `__getitem__` after `_linear_probe` (source lines
172-176): on a probe error the exception propagates; on a found position, if
`self.table[index1] is not None and key[1] in self.table[index1]` the stored
value `self.table[index1][key[1]]` is returned, otherwise `KeyError` is
raised. -/
def afterProbeGet (d : DoubleKeyTable) (key : List Char × List Char) :
    Option (Except PyErr (Nat × Nat)) → Option (Except PyErr Nat)
  | none => none
  | some (.error e) => some (.error e)
  | some (.ok (i1, _)) =>
      match d.table.getD i1 none with
      | none => some (.error .keyError)
      | some st =>
          if st.containsKey key.2 then
            match st.getValue key.2 with
            | some v => some (.ok v)
            | none => some (.error .keyError)
          else some (.error .keyError)

/-- Source `__getitem__` (lines 166-176). -/
def DoubleKeyTable.getitemFuel (d : DoubleKeyTable) (fuel : Nat)
    (key : List Char × List Char) : Option (Except PyErr Nat) :=
  afterProbeGet d key (d.linearProbeFuel fuel key.1 key.2 false)

/-- Continuation of `__contains__` around the lookup (source lines 159-164):
only `KeyError` is caught and turned into `False`; a successful lookup gives
`True`; every other exception propagates. -/
def afterGetContains : Option (Except PyErr Nat) → Option (Except PyErr Bool)
  | none => none
  | some (.ok _) => some (.ok true)
  | some (.error .keyError) => some (.ok false)
  | some (.error e) => some (.error e)

/-- Source `__contains__` (lines 153-164). -/
def DoubleKeyTable.containsFuel (d : DoubleKeyTable) (fuel : Nat)
    (key : List Char × List Char) : Option (Except PyErr Bool) :=
  afterGetContains (d.getitemFuel fuel key)

/-- Source `__setitem__` (lines 178-183): the whole body is
`raise NotImplementedError()`; nothing is mutated, so the post-state is the
pre-state. -/
def DoubleKeyTable.setitem (d : DoubleKeyTable) (key : List Char × List Char)
    (data : Nat) : Except PyErr Unit × DoubleKeyTable :=
  (.error .notImplementedError, d)

/-- Source `__delitem__` (lines 185-191): the whole body is
`raise NotImplementedError()`. -/
def DoubleKeyTable.delitem (d : DoubleKeyTable) (key : List Char × List Char) :
    Except PyErr Unit × DoubleKeyTable :=
  (.error .notImplementedError, d)

/-- Source `__len__` (lines 209-213): the whole body is
`raise NotImplementedError()`. -/
def DoubleKeyTable.len (d : DoubleKeyTable) : Except PyErr Nat :=
  .error .notImplementedError

/-- Modelled from the spec: `ArrayR.__setitem__` — fixed-size,
index-addressable storage; writing outside `[0, length)` is an out-of-bounds
`IndexError`. -/
def ArrayR.setSlot (arr : List (Option LinearProbeTable)) (i : Nat)
    (x : LinearProbeTable) : Except PyErr (List (Option LinearProbeTable)) :=
  if i < arr.length then .ok (arr.set i (some x)) else .error .indexError

/-- The inner-table size chosen at loop index `i` of `__init__` (source lines
39-42): `internal_sizes[i]` when `internal_sizes` is given, else
`TABLE_SIZES[i]`; a Python list index out of range raises `IndexError`. -/
def subSize (TS : List Nat) (internal_sizes : Option (List Nat)) (i : Nat) :
    Except PyErr Nat :=
  match internal_sizes with
  | some l => match l.get? i with
      | some s => .ok s
      | none => .error .indexError
  | none => match TS.get? i with
      | some s => .ok s
      | none => .error .indexError

/-- The `for i in range(len(self.TABLE_SIZES))` loop of `__init__` (source
lines 38-44), storing a fresh inner table at outer slot `i` on every
iteration. (The `hash` override installed on each inner table at line 44
refers to a nonexistent `hash_combined` attribute; it is a method-object
assignment and not part of the table state.) -/
def initLoop (TS : List Nat) (internal_sizes : Option (List Nat)) :
    List Nat → List (Option LinearProbeTable) →
    Except PyErr (List (Option LinearProbeTable))
  | [], arr => .ok arr
  | i :: rest, arr =>
      match subSize TS internal_sizes i with
      | .error e => .error e
      | .ok s =>
          match ArrayR.setSlot arr i (LinearProbeTable.create s) with
          | .error e => .error e
          | .ok arr2 => initLoop TS internal_sizes rest arr2

/-- Source `__init__` (lines 30-46): choose the size sequence
(`self.TABLE_SIZES`), set `size_index = 0`, allocate the outer `ArrayR` at
capacity `TABLE_SIZES[size_index]`, pre-fill the first `len(TABLE_SIZES)`
outer slots with fresh inner tables, and set `num_entries = 0`. -/
def DoubleKeyTable.init (sizes internal_sizes : Option (List Nat)) :
    Except PyErr DoubleKeyTable :=
  match (sizes.getD TABLE_SIZES_default).get? 0 with
  | none => .error .indexError
  | some cap =>
      match initLoop (sizes.getD TABLE_SIZES_default) internal_sizes
          (List.range (sizes.getD TABLE_SIZES_default).length)
          (List.replicate cap none) with
      | .error e => .error e
      | .ok arr => .ok ⟨arr, 0, sizes.getD TABLE_SIZES_default, 0⟩

/-- The live count contributed by one outer slot (0 for an empty slot). -/
def innerCount : Option LinearProbeTable → Nat
  | none => 0
  | some st => st.count

/-- The sum of the live-entry counts of all inner tables. -/
def sumCounts (d : DoubleKeyTable) : Nat :=
  (d.table.map innerCount).sum

/-- Table states reachable from a successful construction by any sequence of
`set` and `delete` calls. Both operations raise without mutating anything, so
each call leaves the object in its pre-call state. -/
inductive Reachable : DoubleKeyTable → Prop
  | init_ok (sizes internal_sizes : Option (List Nat)) (d : DoubleKeyTable) :
      DoubleKeyTable.init sizes internal_sizes = .ok d → Reachable d
  | set_step (d : DoubleKeyTable) (k : List Char × List Char) (v : Nat) :
      Reachable d → Reachable (d.setitem k v).2
  | del_step (d : DoubleKeyTable) (k : List Char × List Char) :
      Reachable d → Reachable (d.delitem k).2

/-- Shorthand for building an occupied slot. -/
def mkEntry (k1 k2 : List Char) (v : Nat) : Entry := (k1, k2, v)

/-- Concrete state for the round-trip claim: the table a successful
construction with `sizes=[5]` produces. -/
def dC1 : DoubleKeyTable :=
  ⟨[some (LinearProbeTable.create 5), none, none, none, none], 0, [5], 0⟩

/-- Concrete inner table for the probe claim: capacity 5, entries at slots 0
and 3, live count 2. -/
def stC2 : LinearProbeTable :=
  ⟨[some (mkEntry ['p'] ['q'] 1), none, none, some (mkEntry ['x'] ['y'] 7), none], 2⟩

/-- Concrete outer state for the probe claim, holding `stC2` at slot 0. -/
def dC2 : DoubleKeyTable :=
  ⟨[some stC2, none, none, none, none], 2, [5], 0⟩

/-- Concrete inner table for the lookup claim: capacity 5, entries at slots 0
and 2, live count 2. -/
def stC3 : LinearProbeTable :=
  ⟨[some (mkEntry ['p'] ['q'] 1), none, some (mkEntry ['x'] ['y'] 7), none, none], 2⟩

/-- Concrete outer state for the lookup claim, holding `stC3` at slot 0. -/
def dC3 : DoubleKeyTable :=
  ⟨[some stC3, none, none, none, none], 2, [5], 0⟩

/-- Concrete inner table for the contains claim: capacity 5, a single entry
at slot 0, live count 1. -/
def stC6 : LinearProbeTable :=
  ⟨[some (mkEntry ['x'] ['e'] 3), none, none, none, none], 1⟩

/-- Concrete outer state for the contains claim, holding `stC6` at slot 0. -/
def dC6 : DoubleKeyTable :=
  ⟨[some stC6, none, none, none, none], 1, [5], 0⟩

/-- Concrete witness state for the invariant claim (the result of
construction with `sizes=[5]`). -/
def dC4w : DoubleKeyTable :=
  ⟨[some (LinearProbeTable.create 5), none, none, none, none], 0, [5], 0⟩

/-- Concrete state for the hash claim. -/
def dC5 : DoubleKeyTable :=
  ⟨List.replicate 5 none, 0, [5], 0⟩

/-- Concrete witness inner table for the hash claim: capacity 13. -/
def stC5 : LinearProbeTable := LinearProbeTable.create 13

/-- Concrete state for the length claim. -/
def dC8 : DoubleKeyTable :=
  ⟨[some (LinearProbeTable.create 3), none, none], 0, [3], 0⟩

/-- Concrete inner table for the nontermination claim: capacity 5, entries at
slots 1 and 4, live count 2. -/
def stC10 : LinearProbeTable :=
  ⟨[none, some (mkEntry ['u'] ['w'] 2), none, none, some (mkEntry ['m'] ['n'] 9)], 2⟩

/-- The entry occupying slot 4 of `stC10`. -/
def eC10 : Entry := mkEntry ['m'] ['n'] 9

/-! ## Helper lemmas -/

/-- A loop round that falls through leaves the loop in exactly the state it
started in, so the loop never terminates, whatever the fuel. -/
theorem probeLoop_none_of_next (st : LinearProbeTable) (top : Nat)
    (k1 k2 : List Char) (is_insert : Bool)
    (h : probeBody st top k1 k2 is_insert = .next) :
    ∀ fuel, probeLoop st top k1 k2 is_insert fuel = none := by
  intro fuel
  induction fuel with
  | zero => rfl
  | succ n ih => simp [probeLoop, h, ih]

/-- Advancing one slot and reducing modulo a count of at least 2 never
reproduces the start index. -/
theorem succ_mod_ne_of_two_le (h c : Nat) (hc : 2 ≤ c) : (h + 1) % c ≠ h := by
  intro heq
  have hpos : 0 < c := by omega
  have hlt : (h + 1) % c < c := Nat.mod_lt _ hpos
  have hlt2 : h < c := by omega
  by_cases h1 : h + 1 < c
  · rw [Nat.mod_eq_of_lt h1] at heq
    omega
  · have h2 : h + 1 = c := by omega
    rw [h2, Nat.mod_self] at heq
    omega

/-- Evaluation of `_linear_probe` when `hash1` succeeds (empty first key) and
the outer slot holds a sub-table. -/
theorem linearProbeFuel_eq (d : DoubleKeyTable) (fuel : Nat)
    (k1 k2 : List Char) (is_insert : Bool) (top : Nat) (st : LinearProbeTable)
    (htop : d.hash1 k1 = .ok top)
    (hst : d.table.getD top none = some st) :
    d.linearProbeFuel fuel k1 k2 is_insert =
      resultOfProbe (probeLoop st top k1 k2 is_insert fuel) := by
  simp only [DoubleKeyTable.linearProbeFuel, htop, hst]

/-! ## C10: the probe loop never advances and never terminates -/

/-- C10: for every lookup or insert in which the inner slot at the hashed
index of `key2` is occupied by an entry whose key does not match, and the
inner table's length (its live count) is greater than 1, `_linear_probe` does
not terminate: the loop reassigns the probe index back to the hashed start at
the top of every iteration, so the single-step advance is discarded and
neither a return nor a `FullError` is ever reached. The well-formedness
hypothesis (count = number of occupied slots) restricts to states of the
spec's data model. -/
theorem claim10_probe_loop_diverges (st : LinearProbeTable) (top : Nat)
    (k1 k2 : List Char) (is_insert : Bool) (e : Entry)
    (_hwf : st.Wf)
    (hslot : st.array.getD (hash2 k2 st) none = some e)
    (hmiss : ¬(e.1 = k1 ∧ e.2.1 = k2))
    (hlen : 1 < st.count) :
    ∀ fuel, probeLoop st top k1 k2 is_insert fuel = none := by
  apply probeLoop_none_of_next
  have h0 : ¬st.count = 0 := by omega
  have h2 : (hash2 k2 st + 1) % st.count ≠ hash2 k2 st :=
    succ_mod_ne_of_two_le _ _ (by omega)
  simp only [probeBody, hslot, if_neg hmiss, if_neg h0, if_neg h2]

/-- Witness for C10 at a concrete input: capacity-5 inner table, entries at
slots 1 and 4, probing `key2 = "c"` (which hashes to occupied slot 4) for a
non-matching `key1 = "z"`. -/
theorem claim10_probe_loop_diverges_witness :
    stC10.Wf ∧
    stC10.array.getD (hash2 ['c'] stC10) none = some eC10 ∧
    ¬(eC10.1 = ['z'] ∧ eC10.2.1 = ['c']) ∧
    1 < stC10.count ∧
    ∀ fuel, probeLoop stC10 0 ['z'] ['c'] true fuel = none :=
  ⟨rfl, rfl, by decide, by decide,
    fun fuel =>
      claim10_probe_loop_diverges stC10 0 ['z'] ['c'] true eC10 rfl rfl
        (by decide) (by decide) fuel⟩

/-! ## C2 and C3: the probe and the lookup built on it diverge -/

/-- C2: evaluating `_linear_probe` on `dC2` at `key1 = ""` (hash 0, so the
sub-table is the one at outer slot 0), `key2 = "b"` (hash 3, an occupied,
non-matching slot) in insert mode: for every amount of fuel the loop has not
returned, raised `KeyError`, or raised `FullError` — contradicting the
claimed forward scan, which would find the empty slot 4 one step ahead. -/
theorem claim2_linear_probe_never_advances :
    ∀ fuel, dC2.linearProbeFuel fuel [] ['b'] true = none := by
  intro fuel
  rw [linearProbeFuel_eq dC2 fuel [] ['b'] true 0 stC2 rfl rfl,
    probeLoop_none_of_next stC2 0 [] ['b'] true rfl fuel]
  rfl

/-- C3: evaluating `__getitem__` on `dC3` at the absent pair
`("", "a")` — `key2 = "a"` hashes to slot 2 of the sub-table, which holds the
non-matching entry `("x", "y", 7)`: for every amount of fuel the lookup has
not terminated, so it never raises the claimed `KeyError`. -/
theorem claim3_get_diverges_on_collision_miss :
    ∀ fuel, dC3.getitemFuel fuel ([], ['a']) = none := by
  intro fuel
  show afterProbeGet dC3 ([], ['a']) (dC3.linearProbeFuel fuel [] ['a'] false) = none
  rw [linearProbeFuel_eq dC3 fuel [] ['a'] false 0 stC3 rfl rfl,
    probeLoop_none_of_next stC3 0 [] ['a'] false rfl fuel]
  rfl

/-! ## C6: `__contains__` can fail -/

/-- C6: on `dC6` — whose inner table at outer slot 0 has a single entry with
second key `"e"` sitting at slot 0 — the query `contains(("", "d"))` hashes
`"d"` to the occupied non-matching slot 0; since the live count is 1 the
incremented index `(0 + 1) % 1 = 0` equals the restart hash, so the probe
raises `FullError`, which `__contains__` does not catch: for every positive
amount of fuel the call fails with `FullError` instead of returning a
boolean. -/
theorem claim6_contains_raises_full_error :
    ∀ fuel, dC6.containsFuel (fuel + 1) ([], ['d']) = some (.error .fullError) := by
  intro fuel
  have hp : probeLoop stC6 0 [] ['d'] false (fuel + 1) =
      some .fullError := by
    have hb : probeBody stC6 0 [] ['d'] false = .done .fullError := rfl
    simp [probeLoop, hb]
  have hlp : dC6.linearProbeFuel (fuel + 1) [] ['d'] false =
      some (.error .fullError) := by
    rw [linearProbeFuel_eq dC6 (fuel + 1) [] ['d'] false 0 stC6 rfl rfl, hp]
    rfl
  show afterGetContains (dC6.getitemFuel (fuel + 1) ([], ['d'])) =
    some (.error .fullError)
  show afterGetContains (afterProbeGet dC6 ([], ['d'])
    (dC6.linearProbeFuel (fuel + 1) [] ['d'] false)) = some (.error .fullError)
  rw [hlp]
  rfl

/-! ## C1, C7, C8: the unimplemented mutators and length -/

/-- C1: on the freshly constructed `dC1`, the round-trip fails at its first
step: `set(("", "b"), 7)` raises `NotImplementedError` and stores nothing, so
the following `get(("", "b"))` raises `KeyError` instead of returning 7. -/
theorem claim1_round_trip_broken :
    (dC1.setitem ([], ['b']) 7).1 = .error .notImplementedError ∧
    (dC1.setitem ([], ['b']) 7).2 = dC1 ∧
    dC1.getitemFuel 1 ([], ['b']) = some (.error .keyError) :=
  ⟨rfl, rfl, rfl⟩

/-- C7: for every table state, a `set` and a `delete` both fail with
`NotImplementedError` and the post-state is exactly the pre-state: no
half-written entry, no change to entries or counts. -/
theorem claim7_failed_ops_leave_state_unchanged (d : DoubleKeyTable)
    (k : List Char × List Char) (v : Nat) :
    (d.setitem k v).1 = .error .notImplementedError ∧
    (d.setitem k v).2 = d ∧
    (d.delitem k).1 = .error .notImplementedError ∧
    (d.delitem k).2 = d :=
  ⟨rfl, rfl, rfl, rfl⟩

/-- C8: `len()` raises `NotImplementedError` instead of returning the global
`num_entries` (which is 0 on the concrete state `dC8`). -/
theorem claim8_len_unimplemented :
    dC8.len = .error .notImplementedError ∧ dC8.num_entries = 0 :=
  ⟨rfl, rfl⟩

/-! ## C5: the rolling hash -/

/-- The accumulator of the hash loop stays below the capacity. -/
theorem hashFold_fst_lt (m : Nat) (hm : 0 < m) :
    ∀ (key : List Char) (v a : Nat), v < m →
      ((key.foldl
        (fun va c => ((c.toNat + va.2 * va.1) % m, va.2 * HASH_BASE % (m - 1)))
        (v, a)).1) < m := by
  intro key
  induction key with
  | nil => intro v a hv; simpa using hv
  | cons c rest ih =>
      intro v a hv
      simp only [List.foldl_cons]
      exact ih _ _ (Nat.mod_lt _ hm)

/-- The hash loop computes the recurrence of `specRollingHash`. -/
theorem hashFold_eq_spec (m : Nat) :
    ∀ (key : List Char) (v a : Nat),
      ((key.foldl
        (fun va c => ((c.toNat + va.2 * va.1) % m, va.2 * HASH_BASE % (m - 1)))
        (v, a)).1) = specRollingHash m key v a := by
  intro key
  induction key with
  | nil => intro v a; rfl
  | cons c rest ih =>
      intro v a
      simp only [List.foldl_cons, specRollingHash]
      exact ih _ _

/-- C5: the claim fails for `hash1`. The source's `table_size` is a raising
method stub (lines 203-207), so `hash1` reads a bound-method object and
`value % self.table_size` raises `TypeError` on the first character of every
non-empty key — it never returns a value in `[0, capacity)`; only for the
empty key does it return 0 (the loop body never runs). `hash2`, whose modulus
is the spec-modelled `sub_table.table_size`, does compute the claimed
recurrence and lands below the capacity, shown here at the key `"ab"` on a
capacity-13 table. -/
theorem claim5_hash1_raises_type_error :
    (∀ (d : DoubleKeyTable) (c : Char) (rest : List Char),
      d.hash1 (c :: rest) = .error .typeError) ∧
    (∀ (d : DoubleKeyTable), d.hash1 [] = .ok 0) ∧
    hash2 ['a', 'b'] stC5 = specRollingHash stC5.table_size ['a', 'b'] 0 31415 ∧
    hash2 ['a', 'b'] stC5 < stC5.table_size :=
  ⟨fun _ _ _ => rfl, fun _ => rfl, by decide, by decide⟩

/-! ## C9: construction indexes past the outer capacity -/

/-- If the loop of `__init__` still has to visit an index at or beyond the
outer capacity, it raises `IndexError` (either at the `ArrayR` write, or even
earlier when `TABLE_SIZES[i]` itself is out of range). -/
theorem initLoop_indexError (TS : List Nat) (c : Nat) :
    ∀ (l : List Nat) (arr : List (Option LinearProbeTable)),
      arr.length = c → (∃ i ∈ l, c ≤ i) →
      initLoop TS none l arr = .error .indexError := by
  intro l
  induction l with
  | nil =>
      intro arr h1 h2
      obtain ⟨i, hi, _⟩ := h2
      exact absurd hi (List.not_mem_nil i)
  | cons j rest ih =>
      intro arr h1 h2
      by_cases hj : c ≤ j
      · cases hget : TS.get? j with
        | none => simp only [initLoop, subSize, hget]
        | some s =>
            have hnot : ¬j < arr.length := by omega
            simp only [initLoop, subSize, hget, ArrayR.setSlot, if_neg hnot]
      · cases hget : TS.get? j with
        | none => simp only [initLoop, subSize, hget]
        | some s =>
            have hlt : j < arr.length := by omega
            simp only [initLoop, subSize, hget, ArrayR.setSlot, if_pos hlt]
            refine ih _ (by simp [h1]) ?_
            obtain ⟨i, hi, hci⟩ := h2
            rcases List.mem_cons.mp hi with h | h
            · omega
            · exact ⟨i, h, hci⟩

/-- C9: for every size sequence whose length exceeds its (positive) first
element — including the default `TABLE_SIZES` of 19 entries starting at 5 —
construction allocates the outer array at capacity `sizes[0]` but then writes
inner tables at every index below `len(sizes)`, so it raises an out-of-bounds
`IndexError` instead of producing an empty table. -/
theorem claim9_init_index_out_of_bounds (sizes : Option (List Nat)) (c : Nat)
    (hhead : (sizes.getD TABLE_SIZES_default).get? 0 = some c)
    (_hpos : 0 < c)
    (hlen : c < (sizes.getD TABLE_SIZES_default).length) :
    DoubleKeyTable.init sizes none = .error .indexError := by
  unfold DoubleKeyTable.init
  simp only [hhead]
  rw [initLoop_indexError (sizes.getD TABLE_SIZES_default) c
    (List.range (sizes.getD TABLE_SIZES_default).length)
    (List.replicate c none) (by simp)
    ⟨c, List.mem_range.mpr hlen, Nat.le_refl c⟩]

/-- Witness for C9: the default construction (`sizes = None`), whose size
sequence has first element 5 and length 19, fails with `IndexError`. -/
theorem claim9_init_index_out_of_bounds_witness :
    ((none : Option (List Nat)).getD TABLE_SIZES_default).get? 0 = some 5 ∧
    0 < 5 ∧
    5 < ((none : Option (List Nat)).getD TABLE_SIZES_default).length ∧
    DoubleKeyTable.init none none = .error .indexError :=
  ⟨rfl, by decide, by decide,
    claim9_init_index_out_of_bounds none 5 rfl (by decide) (by decide)⟩

/-! ## C4: the global counter equals the sum of the inner live counts -/

/-- The loop of `__init__` only ever stores freshly created (count-zero)
inner tables, so it preserves "every outer slot contributes live count 0". -/
theorem initLoop_zero (TS : List Nat) (internal_sizes : Option (List Nat)) :
    ∀ (l : List Nat) (arr arr2 : List (Option LinearProbeTable)),
      (∀ o ∈ arr, innerCount o = 0) →
      initLoop TS internal_sizes l arr = .ok arr2 →
      ∀ o ∈ arr2, innerCount o = 0 := by
  intro l
  induction l with
  | nil =>
      intro arr arr2 h0 h
      simp only [initLoop] at h
      injection h with h
      subst h
      exact h0
  | cons j rest ih =>
      intro arr arr2 h0 h
      cases hs : subSize TS internal_sizes j with
      | error e =>
          simp only [initLoop, hs] at h
          exact Except.noConfusion h
      | ok s =>
          by_cases hj : j < arr.length
          · simp only [initLoop, hs, ArrayR.setSlot, if_pos hj] at h
            refine ih _ _ ?_ h
            intro o ho
            rcases List.mem_or_eq_of_mem_set ho with h1 | h1
            · exact h0 o h1
            · subst h1; rfl
          · simp only [initLoop, hs, ArrayR.setSlot, if_neg hj] at h
            exact Except.noConfusion h

/-- A successful construction yields `num_entries = 0` and inner tables that
are all empty. -/
theorem init_ok_props (sizes internal_sizes : Option (List Nat))
    (d : DoubleKeyTable)
    (h : DoubleKeyTable.init sizes internal_sizes = .ok d) :
    d.num_entries = 0 ∧ ∀ o ∈ d.table, innerCount o = 0 := by
  unfold DoubleKeyTable.init at h
  cases hg : (sizes.getD TABLE_SIZES_default).get? 0 with
  | none =>
      simp only [hg] at h
      exact Except.noConfusion h
  | some cap =>
      simp only [hg] at h
      cases hl : initLoop (sizes.getD TABLE_SIZES_default) internal_sizes
          (List.range (sizes.getD TABLE_SIZES_default).length)
          (List.replicate cap none) with
      | error e =>
          simp only [hl] at h
          exact Except.noConfusion h
      | ok arr =>
          simp only [hl] at h
          injection h with h
          subst h
          refine ⟨rfl, ?_⟩
          refine initLoop_zero _ _ _ _ _ ?_ hl
          intro o ho
          rw [List.eq_of_mem_replicate ho]
          rfl

/-- C4: in every table state reachable from construction by any sequence of
`set` and `delete` operations, the global `num_entries` counter equals the
sum of the live-entry counts of all inner tables. (Both mutators are raising
stubs that leave the state unchanged, so all reachable states are
post-construction states, where both sides are 0.) -/
theorem claim4_num_entries_invariant (d : DoubleKeyTable) (h : Reachable d) :
    d.num_entries = sumCounts d := by
  induction h with
  | init_ok sizes internal_sizes d0 h0 =>
      obtain ⟨h1, h2⟩ := init_ok_props _ _ _ h0
      rw [h1, sumCounts]
      symm
      apply List.sum_eq_zero
      intro x hx
      obtain ⟨o, ho, rfl⟩ := List.mem_map.mp hx
      exact h2 o ho
  | set_step d0 k v h0 ih => exact ih
  | del_step d0 k h0 ih => exact ih

/-- Witness for C4: the state produced by a successful construction with
`sizes = [5]` is reachable and satisfies the invariant. -/
theorem claim4_num_entries_invariant_witness :
    Reachable dC4w ∧ dC4w.num_entries = sumCounts dC4w :=
  have hr : Reachable dC4w := Reachable.init_ok (some [5]) none dC4w rfl
  ⟨hr, claim4_num_entries_invariant dC4w hr⟩
